import Mathlib

/-!
# Verification development for `cling::Interpreter` and `TClassAttributeMap`

The first part holds the embedding (definitions), the second part the theorems.

* `TClassAttributeMap` is translated from `core/meta/src/TClassAttributeMap.cxx`.
* The enumerations and record types of `cling::Interpreter` are translated from
  `interpreter/cling/include/cling/Interpreter/Interpreter.h`.
* The member functions of `cling::Interpreter` are only declared in that header;
  their bodies are modelled from the specification and every such definition says so.
-/

set_option autoImplicit false

/-! ## Part 1 : embedding -/

/-! ### ROOT containers used by `TClassAttributeMap` -/

/-- An object that can be stored in a `THashTable`: it has a name (`TObject::GetName`). -/
class TObject (α : Type) where
  /-- The name under which the object is hashed and found. -/
  GetName : α → String

/-- The `TParameter<int>` object created by `AddProperty(const char*, Int_t)`:
a name and an `Int_t` value. -/
structure TParameter where
  fName : String
  fVal : Int
  deriving DecidableEq, Repr

/-- The `TNamed` object created by `AddProperty(const char*, const char*)`:
a name and a title. -/
structure TNamed where
  fName : String
  fTitle : String
  deriving DecidableEq, Repr

instance : TObject TParameter := ⟨TParameter.fName⟩

instance : TObject TNamed := ⟨TNamed.fName⟩

/-- Modelled from the spec: the container class `THashTable` (ROOT `core/cont`) is missing
from the sources and the specification leaves it out of scope, so it is modelled by what
`TClassAttributeMap.cxx` relies on. The table holds its objects in insertion order; objects
with equal names share a bucket, so `FindObject` meets them in insertion order. Duplicated
names are allowed (`Add` never replaces). -/
structure THashTable (α : Type) where
  fCont : List α
  deriving DecidableEq, Repr

namespace THashTable

variable {α : Type}

/-- Modelled from the spec: `THashTable::Add` appends the object (missing from the sources). -/
def Add (t : THashTable α) (obj : α) : THashTable α :=
  ⟨t.fCont ++ [obj]⟩

/-- Modelled from the spec: `THashTable::FindObject(const char*)` returns the first stored
object whose name equals the argument, or null (missing from the sources). -/
def FindObject [TObject α] (t : THashTable α) (name : String) : Option α :=
  t.fCont.find? (fun o => TObject.GetName o == name)

/-- Modelled from the spec: `THashTable::Remove(TObject*)` takes the given object out of the
table (missing from the sources). -/
def Remove [DecidableEq α] (t : THashTable α) (obj : α) : THashTable α :=
  ⟨t.fCont.erase obj⟩

/-- Modelled from the spec: `THashTable::GetSize` is the number of stored objects
(missing from the sources). -/
def GetSize (t : THashTable α) : Int :=
  t.fCont.length

/-- Modelled from the spec: `THashTable::Delete` empties the table (missing from the
sources). -/
def Delete (_t : THashTable α) : THashTable α :=
  ⟨[]⟩

end THashTable

/-! ### `TClassAttributeMap` -/

/-- A message handed to `TObject::Error(location, fmt, ...)`. -/
structure ErrorReport where
  location : String
  message : String
  deriving DecidableEq, Repr

/-- The two hash tables of a `TClassAttributeMap`. -/
structure TClassAttributeMap where
  fIntProperty : THashTable TParameter
  fStringProperty : THashTable TNamed
  deriving DecidableEq, Repr

namespace TClassAttributeMap

/-- The default constructor: both tables are empty. -/
def ctor : TClassAttributeMap :=
  ⟨⟨[]⟩, ⟨[]⟩⟩

/-- The overload `AddProperty(const char* key, Int_t value)`:
`fIntProperty.Add(new TParameter<int>(key, value))`. -/
def AddProperty (m : TClassAttributeMap) (key : String) (value : Int) : TClassAttributeMap :=
  { m with fIntProperty := m.fIntProperty.Add ⟨key, value⟩ }

/-- The overload `AddProperty(const char* key, const char* value)`:
`fStringProperty.Add(new TNamed(key, value))`. -/
def AddPropertyString (m : TClassAttributeMap) (key : String) (value : String) :
    TClassAttributeMap :=
  { m with fStringProperty := m.fStringProperty.Add ⟨key, value⟩ }

/-- The member `HasKey`: the string table is asked first, then the int table. -/
def HasKey (m : TClassAttributeMap) (key : String) : Bool :=
  if (m.fStringProperty.FindObject key).isSome then true
  else if (m.fIntProperty.FindObject key).isSome then true
  else false

/-- The member `GetPropertyAsInt`: the value of the found `TParameter<int>`, or an error
report and `-1`. The second component is the error reported by the call, if any. -/
def GetPropertyAsInt (m : TClassAttributeMap) (key : String) : Int × Option ErrorReport :=
  match m.fIntProperty.FindObject key with
  | some found => (found.fVal, none)
  | none =>
    (-1, some ⟨"GetPropertyAsInt",
      "Could not find property with Int value for this key: " ++ key⟩)

/-- The member `GetPropertyAsString`: the title of the found `TNamed`, or an error report
and a null pointer (`none`). -/
def GetPropertyAsString (m : TClassAttributeMap) (key : String) :
    Option String × Option ErrorReport :=
  match m.fStringProperty.FindObject key with
  | some found => (some found.fTitle, none)
  | none =>
    (none, some ⟨"GetPropertyAsString",
      "Could not find property with String value for this key: " ++ key⟩)

/-- The member `GetPropertySize`: `fIntProperty.GetSize() + fStringProperty.GetSize()`. -/
def GetPropertySize (m : TClassAttributeMap) : Int :=
  m.fIntProperty.GetSize + m.fStringProperty.GetSize

/-- The member `RemovePropertyInt`: removes the found int property and returns its value,
or returns `-1`. -/
def RemovePropertyInt (m : TClassAttributeMap) (key : String) : Int × TClassAttributeMap :=
  match m.fIntProperty.FindObject key with
  | some property => (property.fVal, { m with fIntProperty := m.fIntProperty.Remove property })
  | none => (-1, m)

/-- The member `RemovePropertyString`: removes the found string property and returns its
title, or returns the empty `TString(0)`. -/
def RemovePropertyString (m : TClassAttributeMap) (key : String) :
    String × TClassAttributeMap :=
  match m.fStringProperty.FindObject key with
  | some property =>
    (property.fTitle, { m with fStringProperty := m.fStringProperty.Remove property })
  | none => ("", m)

/-- The member `RemoveProperty`: only `fStringProperty` is searched; a found object is
removed and `true` returned, otherwise `false`. -/
def RemoveProperty (m : TClassAttributeMap) (key : String) : Bool × TClassAttributeMap :=
  match m.fStringProperty.FindObject key with
  | some property => (true, { m with fStringProperty := m.fStringProperty.Remove property })
  | none => (false, m)

/-- The member `Clear`: both tables are emptied. -/
def Clear (m : TClassAttributeMap) : TClassAttributeMap :=
  { fIntProperty := m.fIntProperty.Delete, fStringProperty := m.fStringProperty.Delete }

end TClassAttributeMap

/-! ### `cling::Interpreter` : types declared in `Interpreter.h` -/

namespace cling

/-- The enumeration `Interpreter::CompilationResult`. -/
inductive CompilationResult where
  | kSuccess
  | kFailure
  | kMoreInputExpected
  deriving DecidableEq, Repr

/-- The enumeration `Interpreter::LoadLibResult`. -/
inductive LoadLibResult where
  | kLoadLibSuccess
  | kLoadLibExists
  | kLoadLibError
  | kLoadLibNumResults
  deriving DecidableEq, Repr

/-- A value of the enumeration `Interpreter::ExecutionResult`, as its underlying number. -/
abbrev ExecutionResult := Nat

/-! The enumerators of `Interpreter::ExecutionResult`, numbered by the C++ rule: the first
enumerator is `0`, an enumerator without initializer is its predecessor plus one, an
enumerator with initializer has the value of that initializer. -/

/-- The function was run successfully. -/
def kExeSuccess : ExecutionResult := 0

/-- Code generator is unavailable; not an error. -/
def kExeNoCodeGen : ExecutionResult := kExeSuccess + 1

/-- First error value. -/
def kExeFirstError : ExecutionResult := kExeNoCodeGen + 1

/-- The function is not known and cannot be called (`= kExeFirstError`). -/
def kExeFunctionNotCompiled : ExecutionResult := kExeFirstError

/-- While compiling the function, unknown symbols were encountered. -/
def kExeUnresolvedSymbols : ExecutionResult := kExeFunctionNotCompiled + 1

/-- Compilation error. -/
def kExeCompilationError : ExecutionResult := kExeUnresolvedSymbols + 1

/-- The function is not known. -/
def kExeUnkownFunction : ExecutionResult := kExeCompilationError + 1

/-- Number of possible results. -/
def kNumExeResults : ExecutionResult := kExeUnkownFunction + 1

/-- The enumeration `LoadedFileInfo::FileType`. -/
inductive FileType where
  | kSource
  | kDynamicLibrary
  | kBitcode
  | kNumFileTypes
  deriving DecidableEq, Repr

/-- The class `Interpreter::LoadedFileInfo`; the `DynamicLibrary` pointer is a handle,
`none` being the null pointer. -/
structure LoadedFileInfo where
  m_Name : String
  m_Type : FileType
  m_DynLib : Option Nat
  deriving DecidableEq, Repr

namespace LoadedFileInfo

/-- Name as loaded for the first time. -/
def getName (f : LoadedFileInfo) : String := f.m_Name

/-- Type of the file. -/
def getType (f : LoadedFileInfo) : FileType := f.m_Type

/-- Pointer to the dynamic library entry. -/
def getDynLib (f : LoadedFileInfo) : Option Nat := f.m_DynLib

end LoadedFileInfo

/-- The struct `Interpreter::CXAAtExitElement`. Function, argument and DSO pointers are
handles; `m_FromTLD` names the top level declaration whose unloading triggers the call
(`none` is the null pointer). -/
structure CXAAtExitElement where
  m_Func : Nat
  m_Arg : Nat
  m_DSO : Nat
  m_FromTLD : Option Nat
  deriving DecidableEq, Repr

/-! ### `cling::Interpreter` : data model of the specification -/

/-- Modelled from the spec: a declaration handle of the front end (`clang::Decl` is only
forward declared in the sources); the core sees its identity and its name. -/
structure Decl where
  handle : Nat
  name : String
  deriving DecidableEq, Repr

/-- Modelled from the spec: the lifecycle states of a Transaction (section 4.2); the class
`Transaction` is only forward declared in the sources. -/
inductive TransactionState where
  | Collecting
  | Complete
  | Committed
  | RolledBack
  deriving DecidableEq, Repr

/-- Modelled from the spec: the compilation-options record of a Transaction (section 3);
the class `CompilationOptions` is only forward declared in the sources. -/
structure CompilationOptions where
  CodeGeneration : Bool
  RunStaticInitsImmediately : Bool
  FatalDiagnostics : Bool
  deriving DecidableEq, Repr

/-- Modelled from the spec: a Transaction (section 3): ordered declarations, options,
lifecycle state, the declaration that triggered its creation, and its sequence number. The
sequence number is the key under which at-exit actions are owned. -/
structure Transaction where
  decls : List Decl
  opts : CompilationOptions
  state : TransactionState
  parent : Option Nat
  seqNo : Nat
  deriving DecidableEq, Repr

/-- Modelled from the spec: the answer of the front end to one increment (section 6). -/
inductive ParseStatus where
  | Complete
  | Incomplete
  | FatalDiagnostic
  deriving DecidableEq, Repr

/-- Modelled from the spec: one static initializer of generated code: the function to run
and the at-exit registrations `(func, arg, dso)` that running it performs. -/
structure StaticInit where
  fn : Nat
  atExit : List (Nat × Nat × Nat)
  deriving DecidableEq, Repr

/-- Modelled from the spec: the module the backend emits for a Transaction (section 6):
its symbols and its static initializers in declaration order. -/
structure Module where
  symbols : List String
  staticInits : List StaticInit
  deriving DecidableEq, Repr

/-- Modelled from the spec: the external collaborators of section 6 (front end, backend,
dynamic library loader) and the lexical scan of `ShouldWrapInput`, whose body is missing
from the sources. All of them are black boxes, hence parameters. -/
structure Collaborators where
  /-- Front end: status and the declaration handles appended to the Transaction. -/
  parseIncrement : String → Transaction → ParseStatus × List Decl
  /-- The scan of `Interpreter::ShouldWrapInput`. -/
  ShouldWrapInput : String → Bool
  /-- Backend: the emitted module, or `none` for a compilation error. -/
  emit : Transaction → Option Module
  /-- Backend: the address of a symbol, or `none` when it cannot be resolved. -/
  resolveSymbol : String → Option Nat
  /-- Backend: the value produced by running the code at an address, if any. -/
  run : Nat → Option Int
  /-- Loader: the handle of the opened library, or `none` for an error. -/
  dlopen : String → Option Nat

/-- Modelled from the spec: what the execution of generated code leaves behind, in order. -/
inductive Event where
  | staticInit (owner : Nat) (fn : Nat)
  | atExit (func : Nat) (arg : Nat)
  | entry (address : Nat)
  deriving DecidableEq, Repr

/-- The interpreter state. `m_UniqueCounter`, `m_AtExitFuncs` and `m_LoadedFiles` are the
members declared in `Interpreter.h`; the other fields are modelled from the spec: the log of
committed Transactions, the Transaction still collecting input, the next sequence number,
the Transaction being executed, the Transactions whose static initializers have run, and
the trace of executed code. The counter is the monotonically increasing counter of section
4.1, a natural number; the member is an `unsigned long long`, and its wrap-around after
`2^64` calls is not part of the model. -/
structure Interpreter where
  m_UniqueCounter : Nat
  m_AtExitFuncs : List CXAAtExitElement
  m_LoadedFiles : List LoadedFileInfo
  log : List Transaction
  collecting : Option Transaction
  nextSeqNo : Nat
  executing : Option Nat
  initialized : List Nat
  trace : List Event
  deriving DecidableEq, Repr

namespace Interpreter

/-! #### UniqueNamer (section 4.1) -/

/-- Modelled from the spec: the decimal rendering of the counter inside a generated name
(the body of `createUniqueName` is missing from the sources). -/
def counterDigits (n : Nat) : List Char :=
  if n = 0 then ['0'] else ((Nat.digits 10 n).reverse.map Nat.digitChar)

/-- Modelled from the spec: `Interpreter::createUniqueName` (body missing from the
sources): the fixed tag followed by the value of the counter, and the counter, which only
ever increases, is advanced by one. The tag is the fixed unlikely pattern of section 4.1
and is a parameter. -/
def createUniqueName (tag : String) (I : Interpreter) : String × Interpreter :=
  (tag ++ String.mk (counterDigits I.m_UniqueCounter),
   { I with m_UniqueCounter := I.m_UniqueCounter + 1 })

/-- Modelled from the spec: `Interpreter::isUniqueName` (body missing from the sources):
a name is recognised as generated when it starts with the fixed tag. -/
def isUniqueName (tag : String) (name : String) : Bool :=
  tag.data.isPrefixOf name.data

/-- The names returned by `n` successive calls of `createUniqueName`, first call first, and
the state after the last call. -/
def createUniqueNames (tag : String) : Nat → Interpreter → List String × Interpreter
  | 0, I => ([], I)
  | n + 1, I =>
    let r := createUniqueName tag I
    let rest := createUniqueNames tag n r.2
    (r.1 :: rest.1, rest.2)

/-! #### InputWrapper (section 4.3) -/

/-- Modelled from the spec: `Interpreter::WrapInput` (body missing from the sources): the
text is embedded verbatim in a function whose name comes from the UniqueNamer; the result
is the wrapped text, the name of the function and the new state. -/
def WrapInput (tag : String) (I : Interpreter) (input : String) :
    (String × String) × Interpreter :=
  let r := createUniqueName tag I
  (("void " ++ r.1 ++ "() \x7b\n" ++ input ++ "\n;\n\x7d", r.1), r.2)

/-! #### IncrementalCompiler (section 4.4) -/

/-- Modelled from the spec: the declarations a lookup can resolve: those of the committed
Transactions of the log, in commit order. -/
def visibleDecls (I : Interpreter) : List Decl :=
  I.log.flatMap Transaction.decls

/-- Modelled from the spec: whether a lookup of `name` resolves. -/
def resolves (I : Interpreter) (name : String) : Bool :=
  I.visibleDecls.any (fun d => d.name == name)

/-- Modelled from the spec: the Transaction an input is fed into: the one still collecting,
or a new one with the next sequence number. -/
def currentTransaction (I : Interpreter) (CO : CompilationOptions) : Transaction :=
  match I.collecting with
  | some T => T
  | none => { decls := [], opts := CO, state := .Collecting, parent := none,
              seqNo := I.nextSeqNo }

/-- Modelled from the spec: the next free sequence number once the input has been fed: a
continued Transaction takes none, a new Transaction takes one. -/
def seqNoAfter (I : Interpreter) : Nat :=
  match I.collecting with
  | some _ => I.nextSeqNo
  | none => I.nextSeqNo + 1

/-- Modelled from the spec: `compile(text, options)` of section 4.4 (the class
`IncrementalParser` is only forward declared in the sources).
1. the text is fed to the front end inside the new or continuing Transaction;
2. on an unterminated construct the Transaction stays `Collecting`: `kMoreInputExpected`;
4. on a fatal diagnostic the Transaction is `RolledBack` and discarded: `kFailure`;
5. otherwise it is `Committed` and appended to the log: `kSuccess`. -/
def compile (C : Collaborators) (I : Interpreter) (text : String) (CO : CompilationOptions) :
    CompilationResult × Transaction × Interpreter :=
  let T0 := I.currentTransaction CO
  let r := C.parseIncrement text T0
  let T1 : Transaction := { T0 with decls := T0.decls ++ r.2 }
  match r.1 with
  | .Incomplete =>
    (.kMoreInputExpected, T1,
      { I with collecting := some T1, nextSeqNo := I.seqNoAfter })
  | .FatalDiagnostic =>
    (.kFailure, { T1 with state := .RolledBack },
      { I with collecting := none, nextSeqNo := I.seqNoAfter })
  | .Complete =>
    (.kSuccess, { T1 with state := .Committed },
      { I with collecting := none, nextSeqNo := I.seqNoAfter,
               log := I.log ++ [{ T1 with state := .Committed }] })

/-- Modelled from the spec: `Interpreter::DeclareInternal` (body missing from the sources),
the worker behind `declare`: one run of the incremental compiler. -/
def DeclareInternal (C : Collaborators) (I : Interpreter) (input : String)
    (CO : CompilationOptions) : CompilationResult × Transaction × Interpreter :=
  compile C I input CO

/-- Modelled from the spec: the options of `declare`: code generation is possible but not
forced, nothing is run. -/
def declareOptions : CompilationOptions :=
  { CodeGeneration := true, RunStaticInitsImmediately := false, FatalDiagnostics := true }

/-- Modelled from the spec: `Interpreter::declare` (body missing from the sources): the
input is compiled as top-level declarations. -/
def declare (C : Collaborators) (I : Interpreter) (input : String) :
    CompilationResult × Transaction × Interpreter :=
  DeclareInternal C I input declareOptions

/-! #### ExecutionEngine (section 4.5) -/

/-- Modelled from the spec: `Interpreter::CXAAtExit` (body missing from the sources): the
action is appended to `m_AtExitFuncs`, owned by the Transaction being executed; the result
`0` reports success. -/
def CXAAtExit (I : Interpreter) (func arg dso : Nat) : Int × Interpreter :=
  (0, { I with m_AtExitFuncs := I.m_AtExitFuncs ++ [⟨func, arg, dso, I.executing⟩] })

/-- Modelled from the spec: running one static initializer on behalf of the executing
Transaction `owner`: the run is traced and its at-exit registrations go through
`CXAAtExit`, in order. -/
def runStaticInit (owner : Nat) (I : Interpreter) (s : StaticInit) : Interpreter :=
  s.atExit.foldl (fun J a => (CXAAtExit J a.1 a.2.1 a.2.2).2)
    { I with trace := I.trace ++ [Event.staticInit owner s.fn] }

/-- Modelled from the spec: the static initializers introduced by a Transaction: those of
the module the backend emits for it, none when nothing is emitted. -/
def staticInitsOf (C : Collaborators) (T : Transaction) : List StaticInit :=
  match C.emit T with
  | some M => M.staticInits
  | none => []

/-- Modelled from the spec: `Interpreter::runStaticInitializersOnce` (body missing from
the sources): the pending static initializers of `T` are run in declaration order, with
`T` as the executing Transaction, and `T` is recorded as initialized; on a Transaction
already recorded nothing is run. -/
def runStaticInitializersOnce (C : Collaborators) (I : Interpreter) (T : Transaction) :
    ExecutionResult × Interpreter :=
  if T.seqNo ∈ I.initialized then (kExeSuccess, I)
  else
    let J := (staticInitsOf C T).foldl (runStaticInit T.seqNo)
      { I with executing := some T.seqNo }
    (kExeSuccess, { J with executing := I.executing, initialized := T.seqNo :: I.initialized })

/-- The state after `k` successive calls of `runStaticInitializersOnce` on `T`. -/
def runStaticInitializersTimes (C : Collaborators) (T : Transaction) :
    Nat → Interpreter → Interpreter
  | 0, I => I
  | k + 1, I => runStaticInitializersTimes C T k (runStaticInitializersOnce C I T).2

/-- Modelled from the spec: `emitAndRun(Transaction, entryName?)` of section 4.5 (the class
`ExecutionContext` is only forward declared in the sources). The result is the execution
result, the value of the entry if one was run, and the new state. -/
def emitAndRun (C : Collaborators) (I : Interpreter) (T : Transaction)
    (entryName : Option String) : ExecutionResult × Option Int × Interpreter :=
  if T.opts.CodeGeneration = false then (kExeNoCodeGen, none, I)
  else
    match C.emit T with
    | none => (kExeCompilationError, none, I)
    | some M =>
      match entryName with
      | none => (kExeSuccess, none, (runStaticInitializersOnce C I T).2)
      | some name =>
        if name ∈ M.symbols then
          let J := (runStaticInitializersOnce C I T).2
          match C.resolveSymbol name with
          | none => (kExeUnresolvedSymbols, none, J)
          | some address =>
            (kExeSuccess, C.run address, { J with trace := J.trace ++ [Event.entry address] })
        else (kExeUnkownFunction, none, I)

/-- Whether an at-exit action is owned by the Transaction with sequence number `t`. -/
def ownedBy (t : Nat) (e : CXAAtExitElement) : Bool :=
  e.m_FromTLD == some t

/-- Modelled from the spec: the loop of `unload` over the pending actions, newest first:
an action owned by `t` is invoked and dropped, any other action is kept. The argument is
the pending list newest first; the result is the trace of the invocations and the kept
actions, newest first. -/
def runAtExitOf (t : Nat) : List CXAAtExitElement → List Event × List CXAAtExitElement
  | [] => ([], [])
  | e :: older =>
    let r := runAtExitOf t older
    if ownedBy t e then (Event.atExit e.m_Func e.m_Arg :: r.1, r.2)
    else (r.1, e :: r.2)

/-- Modelled from the spec: `unload(Transaction)` of section 4.5 (the body of
`Interpreter::unload` is missing from the sources): the pending at-exit actions of the
Transaction are run newest first and removed from `m_AtExitFuncs`, then its declarations
leave the log, so that later lookups of them fail. -/
def unload (I : Interpreter) (t : Nat) : Interpreter :=
  let r := runAtExitOf t I.m_AtExitFuncs.reverse
  { I with trace := I.trace ++ r.1,
           m_AtExitFuncs := r.2.reverse,
           log := I.log.filter (fun T => T.seqNo != t) }

/-- Modelled from the spec: `Interpreter::runStaticDestructorsOnce` (body missing from the
sources): at shutdown every pending at-exit action is invoked, newest first, and the list
is emptied. -/
def runStaticDestructorsOnce (I : Interpreter) : ExecutionResult × Interpreter :=
  (kExeSuccess,
    { I with trace := I.trace ++ I.m_AtExitFuncs.reverse.map (fun e => Event.atExit e.m_Func e.m_Arg),
             m_AtExitFuncs := [] })

/-! #### Interpreter facade (section 4.6) -/

/-- Modelled from the spec: the options of `evaluate`: code is generated and run. -/
def evaluateOptions : CompilationOptions :=
  { CodeGeneration := true, RunStaticInitsImmediately := true, FatalDiagnostics := true }

/-- Modelled from the spec: `Interpreter::EvaluateInternal` (body missing from the
sources): the text is wrapped if it needs to be, compiled, and on success code is generated
and the entry is run; an execution error makes the call fail. -/
def EvaluateInternal (C : Collaborators) (tag : String) (I : Interpreter) (input : String)
    (CO : CompilationOptions) : CompilationResult × Option Int × Interpreter :=
  let w : (String × Option String) × Interpreter :=
    if C.ShouldWrapInput input then
      let r := WrapInput tag I input
      ((r.1.1, some r.1.2), r.2)
    else ((input, none), I)
  let c := compile C w.2 w.1.1 CO
  match c.1 with
  | .kSuccess =>
    let e := emitAndRun C c.2.2 c.2.1 w.1.2
    (if e.1 < kExeFirstError then .kSuccess else .kFailure, e.2.1, e.2.2)
  | res => (res, none, c.2.2)

/-- Modelled from the spec: `Interpreter::evaluate` (body missing from the sources). -/
def evaluate (C : Collaborators) (tag : String) (I : Interpreter) (input : String) :
    CompilationResult × Option Int × Interpreter :=
  EvaluateInternal C tag I input evaluateOptions

/-- Modelled from the spec: `Interpreter::process` (body missing from the sources): the
entry point for text of unknown kind; it goes to `declare` or to `evaluate` as
`ShouldWrapInput` decides. A declaration yields no value. -/
def process (C : Collaborators) (tag : String) (I : Interpreter) (input : String) :
    CompilationResult × Option Int × Interpreter :=
  if C.ShouldWrapInput input then evaluate C tag I input
  else
    let d := declare C I input
    (d.1, none, d.2.2)

/-- The inline member `getLoadedFiles`: the vector `m_LoadedFiles`. -/
def getLoadedFiles (I : Interpreter) : List LoadedFileInfo :=
  I.m_LoadedFiles

/-- Modelled from the spec: `Interpreter::addLoadedFile` (body missing from the sources):
a new record is appended to `m_LoadedFiles`. -/
def addLoadedFile (I : Interpreter) (name : String) (type : FileType)
    (dyLib : Option Nat) : Interpreter :=
  { I with m_LoadedFiles := I.m_LoadedFiles ++ [⟨name, type, dyLib⟩] }

/-- Modelled from the spec: `Interpreter::loadLibrary` (body missing from the sources): a
library whose name is already in the registry is reported as existing; otherwise the loader
opens it and on success one record is added. -/
def loadLibrary (C : Collaborators) (I : Interpreter) (filename : String)
    (_permanent : Bool) : LoadLibResult × Interpreter :=
  if I.m_LoadedFiles.any (fun f => f.getName == filename) then (.kLoadLibExists, I)
  else
    match C.dlopen filename with
    | none => (.kLoadLibError, I)
    | some handle => (.kLoadLibSuccess, I.addLoadedFile filename .kDynamicLibrary (some handle))

/-- The static initializer functions that the trace records as run on behalf of the
Transaction with sequence number `t`, in the order they ran. -/
def staticInitRuns (t : Nat) (tr : List Event) : List Nat :=
  tr.filterMap (fun ev =>
    match ev with
    | Event.staticInit owner fn => if owner = t then some fn else none
    | _ => none)

/-- The state after the Transaction with sequence number `r.1` registered, while being
executed, the at-exit action `(func, arg, dso) = r.2` through `CXAAtExit`. -/
def registerAtExit (I : Interpreter) (r : Nat × Nat × Nat × Nat) : Interpreter :=
  { (CXAAtExit { I with executing := some r.1 } r.2.1 r.2.2.1 r.2.2.2).2 with
      executing := I.executing }

/-- The pending element that `registerAtExit` creates for a registration. -/
def elementOf (r : Nat × Nat × Nat × Nat) : CXAAtExitElement :=
  ⟨r.2.1, r.2.2.1, r.2.2.2, some r.1⟩

/-- The trace entry left by invoking a pending at-exit action. -/
def atExitEvent (e : CXAAtExitElement) : Event :=
  Event.atExit e.m_Func e.m_Arg

/-- Modelled from the spec: the state of a freshly constructed interpreter: nothing is
declared, loaded, registered or run (the constructor body is missing from the sources). -/
def ctor : Interpreter :=
  { m_UniqueCounter := 0, m_AtExitFuncs := [], m_LoadedFiles := [], log := [],
    collecting := none, nextSeqNo := 0, executing := none, initialized := [], trace := [] }

/-- A small set of collaborators on which the operations can be evaluated: the front end
knows four inputs, the backend emits one static initializer per declaration, the loader
knows one library. -/
def sampleCollaborators : Collaborators :=
  { parseIncrement := fun text _ =>
      if text == "int x = 5;" then (.Complete, [⟨1, "x"⟩])
      else if text == "int y = undefinedSymbol();" then (.FatalDiagnostic, [⟨2, "y"⟩])
      else if text == "int f() \x7b" then (.Incomplete, [])
      else if text == "return 1; \x7d" then (.Complete, [⟨3, "f"⟩])
      else (.Complete, []),
    ShouldWrapInput := fun text => text == "x + 1",
    emit := fun T =>
      some ⟨T.decls.map Decl.name, T.decls.map (fun d => ⟨d.handle, [(d.handle, 0, 0)]⟩)⟩,
    resolveSymbol := fun _ => some 0,
    run := fun _ => some 6,
    dlopen := fun path => if path == "libg.so" then some 1 else none }

end Interpreter

end cling

/-! ## Part 2 : theorems -/

namespace TClassAttributeMap

theorem findObject_add_of_none (t : THashTable TParameter) (key : String) (value : Int)
    (h : t.FindObject key = none) :
    (t.Add ⟨key, value⟩).FindObject key = some ⟨key, value⟩ := by
  unfold THashTable.FindObject at h
  unfold THashTable.FindObject THashTable.Add
  rw [List.find?_append, h]
  simp [TObject.GetName]

/-- C10: when the map holds no Int property under `key`, `GetPropertyAsInt(key)` after
`AddProperty(key, value)` returns `value` and reports no error. -/
theorem getPropertyAsInt_addProperty (m : TClassAttributeMap) (key : String) (value : Int)
    (h : m.fIntProperty.FindObject key = none) :
    (m.AddProperty key value).GetPropertyAsInt key = (value, none) := by
  have hfound : (m.AddProperty key value).fIntProperty.FindObject key = some ⟨key, value⟩ := by
    unfold AddProperty
    exact findObject_add_of_none m.fIntProperty key value h
  unfold GetPropertyAsInt
  rw [hfound]

/-- Witness for C10 on a map that already holds a String property under the same key and
an Int property under another key. -/
theorem getPropertyAsInt_addProperty_witness :
    (((ctor.AddPropertyString "a" "s").AddProperty "b" 7).fIntProperty.FindObject "a" = none) ∧
    ((((ctor.AddPropertyString "a" "s").AddProperty "b" 7).AddProperty "a" 42).GetPropertyAsInt "a"
      = (42, none)) :=
  ⟨by decide, getPropertyAsInt_addProperty _ "a" 42 (by decide)⟩

theorem removeProperty_fst (m : TClassAttributeMap) (key : String) :
    (m.RemoveProperty key).1 = (m.fStringProperty.FindObject key).isSome := by
  unfold RemoveProperty
  cases m.fStringProperty.FindObject key <;> rfl

theorem removeProperty_of_no_string (m : TClassAttributeMap) (key : String)
    (h : m.fStringProperty.FindObject key = none) :
    m.RemoveProperty key = (false, m) := by
  unfold RemoveProperty
  rw [h]

/-- C9 (failing input): on the map built by `AddProperty("k", 1)`, `HasKey("k")` is true,
yet `RemoveProperty("k")` returns false and leaves the Int property in the map. -/
theorem removeProperty_misses_int_property :
    (ctor.AddProperty "k" 1).HasKey "k" = true ∧
    ((ctor.AddProperty "k" 1).RemoveProperty "k").1 = false ∧
    ((ctor.AddProperty "k" 1).RemoveProperty "k").2 = ctor.AddProperty "k" 1 ∧
    (((ctor.AddProperty "k" 1).RemoveProperty "k").2).HasKey "k" = true := by
  decide

end TClassAttributeMap

namespace cling

namespace Interpreter

/-! ### UniqueNamer -/

theorem digitChar_inj_of_lt : ∀ a < 10, ∀ b < 10, Nat.digitChar a = Nat.digitChar b → a = b := by
  decide

theorem map_digitChar_inj : ∀ (l₁ l₂ : List Nat), (∀ x ∈ l₁, x < 10) → (∀ x ∈ l₂, x < 10) →
    l₁.map Nat.digitChar = l₂.map Nat.digitChar → l₁ = l₂
  | [], [], _, _, _ => rfl
  | [], _ :: _, _, _, h => by simp at h
  | _ :: _, [], _, _, h => by simp at h
  | a :: l₁, b :: l₂, h₁, h₂, h => by
    simp only [List.map_cons, List.cons.injEq] at h
    have hab : a = b :=
      digitChar_inj_of_lt a (h₁ a (List.mem_cons_self _ _)) b (h₂ b (List.mem_cons_self _ _)) h.1
    have hl : l₁ = l₂ :=
      map_digitChar_inj l₁ l₂ (fun x hx => h₁ x (List.mem_cons_of_mem _ hx))
        (fun x hx => h₂ x (List.mem_cons_of_mem _ hx)) h.2
    rw [hab, hl]

theorem digits_ne_zero_singleton (m : Nat) (hm : m ≠ 0) : Nat.digits 10 m ≠ [0] := by
  intro h
  have := Nat.ofDigits_digits 10 m
  rw [h] at this
  simp at this
  exact hm this.symm

theorem counterDigits_injective : Function.Injective counterDigits := by
  intro n m h
  have hlt : ∀ k : Nat, ∀ x ∈ Nat.digits 10 k, x < 10 := fun k x hx => Nat.digits_lt_base (by norm_num) hx
  have key : ∀ k : Nat, k ≠ 0 → ['0'] ≠ (Nat.digits 10 k).reverse.map Nat.digitChar := by
    intro k hk hx
    have h0 : ([0] : List Nat).map Nat.digitChar = (Nat.digits 10 k).reverse.map Nat.digitChar := by
      simpa using hx
    have := map_digitChar_inj [0] (Nat.digits 10 k).reverse (by simp)
      (fun x hx => hlt k x (List.mem_reverse.mp hx)) h0
    have h1 : Nat.digits 10 k = [0] := by
      have := congrArg List.reverse this
      simpa using this.symm
    exact digits_ne_zero_singleton k hk h1
  unfold counterDigits at h
  by_cases hn : n = 0 <;> by_cases hm : m = 0
  · rw [hn, hm]
  · simp only [hn, hm, if_true, if_false] at h
    exact absurd h (key m hm)
  · simp only [hn, hm, if_true, if_false] at h
    exact absurd h.symm (key n hn)
  · simp only [hn, hm, if_false] at h
    have := map_digitChar_inj _ _ (fun x hx => hlt n x (List.mem_reverse.mp hx))
      (fun x hx => hlt m x (List.mem_reverse.mp hx)) h
    exact Nat.digits.injective 10 (List.reverse_injective this)

theorem uniqueName_injective (tag : String) :
    Function.Injective (fun n : Nat => tag ++ String.mk (counterDigits n)) := by
  intro n m h
  have hd := congrArg String.data h
  simp only [String.data_append] at hd
  exact counterDigits_injective (List.append_cancel_left hd)

theorem createUniqueNames_eq (tag : String) : ∀ (n : Nat) (I : Interpreter),
    (createUniqueNames tag n I).1 =
      (List.range n).map (fun i => tag ++ String.mk (counterDigits (I.m_UniqueCounter + i)))
  | 0, _ => rfl
  | n + 1, I => by
    simp only [createUniqueNames, List.range_succ_eq_map, List.map_cons, List.map_map]
    rw [createUniqueNames_eq tag n]
    simp [createUniqueName, Function.comp_def, Nat.add_assoc, Nat.add_comm 1]

theorem createUniqueNames_counter (tag : String) : ∀ (n : Nat) (I : Interpreter),
    (createUniqueNames tag n I).2.m_UniqueCounter = I.m_UniqueCounter + n
  | 0, _ => rfl
  | n + 1, I => by
    simp only [createUniqueNames]
    rw [createUniqueNames_counter tag n]
    simp [createUniqueName, Nat.add_assoc, Nat.add_comm 1]

/-- C1: for every number of calls `n` and every interpreter state, the `n` names returned
by `n` successive calls of `createUniqueName` are `n` names, pairwise distinct, and
`isUniqueName` holds for each of them. -/
theorem createUniqueNames_distinct_and_unique (tag : String) (n : Nat) (I : Interpreter) :
    (createUniqueNames tag n I).1.length = n ∧
    (createUniqueNames tag n I).1.Nodup ∧
    ∀ name ∈ (createUniqueNames tag n I).1, isUniqueName tag name = true := by
  rw [createUniqueNames_eq]
  refine ⟨by simp, ?_, ?_⟩
  · have hinj : Function.Injective
        (fun i => tag ++ String.mk (counterDigits (I.m_UniqueCounter + i))) := by
      intro a b hab
      exact Nat.add_left_cancel (uniqueName_injective tag hab)
    exact List.Nodup.map hinj (List.nodup_range n)
  · intro name hname
    obtain ⟨i, _, rfl⟩ := List.mem_map.mp hname
    simp [isUniqueName, String.data_append]

end Interpreter

end cling

namespace cling

namespace Interpreter

/-! ### IncrementalCompiler : rollback -/

theorem compile_failure_log (C : Collaborators) (I : Interpreter) (text : String)
    (CO : CompilationOptions) (h : (compile C I text CO).1 = .kFailure) :
    (compile C I text CO).2.2.log = I.log ∧
    (compile C I text CO).2.1.state = .RolledBack ∧
    (compile C I text CO).2.2.collecting = none := by
  unfold compile at h ⊢
  cases hp : (C.parseIncrement text (I.currentTransaction CO)).1 <;> simp [hp] at h ⊢

/-- C2: when `declare(input)` returns `kFailure`, the Transaction of the input is rolled
back and the resolvable declarations are those from before the call: the log of committed
Transactions, the visible declarations and the outcome of every lookup are unchanged, so a
name of the rolled back Transaction that did not resolve before does not resolve after. -/
theorem declare_failure_rolls_back (C : Collaborators) (I : Interpreter) (input : String)
    (h : (declare C I input).1 = .kFailure) :
    (declare C I input).2.1.state = .RolledBack ∧
    (declare C I input).2.2.log = I.log ∧
    (declare C I input).2.2.visibleDecls = I.visibleDecls ∧
    (∀ name, (declare C I input).2.2.resolves name = I.resolves name) ∧
    (∀ d ∈ (declare C I input).2.1.decls, I.resolves d.name = false →
      (declare C I input).2.2.resolves d.name = false) := by
  have hc := compile_failure_log C I input declareOptions h
  have hlog : (declare C I input).2.2.log = I.log := hc.1
  have hvis : (declare C I input).2.2.visibleDecls = I.visibleDecls := by
    unfold visibleDecls
    rw [hlog]
  have hres : ∀ name, (declare C I input).2.2.resolves name = I.resolves name := by
    intro name
    unfold resolves
    rw [hvis]
  refine ⟨hc.2.1, hlog, hvis, hres, ?_⟩
  intro d _ hd
  rw [hres, hd]

/-- Witness for C2: the failing declaration of the scenario, after a successful one. -/
theorem declare_failure_rolls_back_witness :
    (declare sampleCollaborators (declare sampleCollaborators ctor "int x = 5;").2.2
      "int y = undefinedSymbol();").1 = .kFailure ∧
    (declare sampleCollaborators (declare sampleCollaborators ctor "int x = 5;").2.2
      "int y = undefinedSymbol();").2.2.resolves "y" = false ∧
    (declare sampleCollaborators (declare sampleCollaborators ctor "int x = 5;").2.2
      "int y = undefinedSymbol();").2.2.resolves "x" = true :=
  ⟨by decide,
   (declare_failure_rolls_back sampleCollaborators
      (declare sampleCollaborators ctor "int x = 5;").2.2 "int y = undefinedSymbol();"
      (by decide)).2.2.2.2 ⟨2, "y"⟩ (by decide) (by decide),
   by decide⟩

/-! ### Interpreter facade : dispatch of `process` -/

/-- C6: `process` dispatches on `ShouldWrapInput`: either the scan says no and the result
and the new state of `process(input)` are those of `declare(input)`, or the scan says yes
and result, value and new state are those of `evaluate(input)`. -/
theorem process_dispatch (C : Collaborators) (tag : String) (I : Interpreter) (input : String) :
    (C.ShouldWrapInput input = false ∧
      (process C tag I input).1 = (declare C I input).1 ∧
      (process C tag I input).2.2 = (declare C I input).2.2) ∨
    (C.ShouldWrapInput input = true ∧
      process C tag I input = evaluate C tag I input) := by
  cases hw : C.ShouldWrapInput input
  · left
    simp [process, hw]
  · right
    simp [process, hw]

/-! ### Loaded-file registry -/

/-- C7: when `loadLibrary(filename, permanent)` returns `kLoadLibSuccess`, the registry
returned by `getLoadedFiles` afterwards is the registry from before the call followed by
exactly one record, the one of the loaded library. -/
theorem loadLibrary_success_appends_one (C : Collaborators) (I : Interpreter)
    (filename : String) (permanent : Bool)
    (h : (loadLibrary C I filename permanent).1 = .kLoadLibSuccess) :
    ∃ info : LoadedFileInfo,
      (loadLibrary C I filename permanent).2.getLoadedFiles = I.getLoadedFiles ++ [info] ∧
      info.getName = filename ∧ info.getType = .kDynamicLibrary := by
  unfold loadLibrary at h ⊢
  by_cases hex : (I.m_LoadedFiles.any (fun f => f.getName == filename)) = true
  · simp [hex] at h
  · cases hd : C.dlopen filename with
    | none => simp [hex, hd] at h
    | some handle =>
      refine ⟨⟨filename, .kDynamicLibrary, some handle⟩, ?_, rfl, rfl⟩
      simp [hex, hd, addLoadedFile, getLoadedFiles]

/-- Witness for C7: loading a second library into a registry that holds one record. -/
theorem loadLibrary_success_appends_one_witness :
    (loadLibrary sampleCollaborators (ctor.addLoadedFile "a.h" .kSource none)
      "libg.so" false).1 = .kLoadLibSuccess ∧
    ∃ info : LoadedFileInfo,
      (loadLibrary sampleCollaborators (ctor.addLoadedFile "a.h" .kSource none)
        "libg.so" false).2.getLoadedFiles
        = (ctor.addLoadedFile "a.h" .kSource none).getLoadedFiles ++ [info] ∧
      info.getName = "libg.so" ∧ info.getType = .kDynamicLibrary :=
  ⟨by decide,
   loadLibrary_success_appends_one sampleCollaborators (ctor.addLoadedFile "a.h" .kSource none)
     "libg.so" false (by decide)⟩

end Interpreter

/-! ### The enumeration `ExecutionResult` -/

/-- C8: `kExeNoCodeGen` is not an error: the values below `kExeFirstError` are exactly
`kExeSuccess` and `kExeNoCodeGen`, each of the four error results is at least
`kExeFirstError`, and among the result values (those below `kNumExeResults`) the test
`r >= kExeFirstError` holds exactly for the four error results. -/
theorem executionResult_noCodeGen_not_error :
    (∀ r : ExecutionResult, r < kExeFirstError ↔ (r = kExeSuccess ∨ r = kExeNoCodeGen)) ∧
    kExeFirstError ≤ kExeFunctionNotCompiled ∧
    kExeFirstError ≤ kExeUnresolvedSymbols ∧
    kExeFirstError ≤ kExeCompilationError ∧
    kExeFirstError ≤ kExeUnkownFunction ∧
    (∀ r : ExecutionResult, (kExeFirstError ≤ r ∧ r < kNumExeResults) ↔
      (r = kExeFunctionNotCompiled ∨ r = kExeUnresolvedSymbols ∨
       r = kExeCompilationError ∨ r = kExeUnkownFunction)) := by
  simp only [kNumExeResults, kExeUnkownFunction, kExeCompilationError, kExeUnresolvedSymbols,
    kExeFunctionNotCompiled, kExeFirstError, kExeNoCodeGen, kExeSuccess]
  unfold ExecutionResult
  refine ⟨?_, by decide, by decide, by decide, by decide, ?_⟩ <;> intro r <;> omega

end cling

namespace cling

namespace Interpreter

/-! ### At-exit actions : LIFO unloading -/

theorem runAtExitOf_eq (t : Nat) : ∀ l : List CXAAtExitElement,
    runAtExitOf t l =
      ((l.filter (ownedBy t)).map atExitEvent, l.filter (fun e => !ownedBy t e))
  | [] => rfl
  | e :: older => by
    unfold runAtExitOf
    rw [runAtExitOf_eq t older]
    cases ho : ownedBy t e <;> simp [ho, atExitEvent]

theorem unload_trace (I : Interpreter) (t : Nat) :
    (unload I t).trace =
      I.trace ++ ((I.m_AtExitFuncs.filter (ownedBy t)).reverse.map atExitEvent) := by
  simp [unload, runAtExitOf_eq, List.filter_reverse]

theorem unload_atExitFuncs (I : Interpreter) (t : Nat) :
    (unload I t).m_AtExitFuncs = I.m_AtExitFuncs.filter (fun e => !ownedBy t e) := by
  simp [unload, runAtExitOf_eq, List.filter_reverse]

theorem registerAtExit_all (regs : List (Nat × Nat × Nat × Nat)) : ∀ I : Interpreter,
    (regs.foldl registerAtExit I).m_AtExitFuncs = I.m_AtExitFuncs ++ regs.map elementOf ∧
    (regs.foldl registerAtExit I).trace = I.trace := by
  induction regs with
  | nil => intro I; simp
  | cons r rest ih =>
    intro I
    rw [List.foldl_cons]
    obtain ⟨h₁, h₂⟩ := ih (registerAtExit I r)
    rw [h₁, h₂]
    simp [registerAtExit, CXAAtExit, elementOf]

theorem ownedBy_elementOf (t : Nat) (r : Nat × Nat × Nat × Nat) :
    ownedBy t (elementOf r) = (r.1 == t) := by
  simp [ownedBy, elementOf]

/-- C3: after any sequence of registrations through `CXAAtExit`, each on behalf of its
executing Transaction, unloading the Transaction `t` invokes exactly the pending actions of
`t`, newest first: those just registered for `t` in reverse registration order, then those
that were already pending for `t`, also in reverse order, each once. Afterwards
`m_AtExitFuncs` holds the actions of the other Transactions, unchanged and in order, and no
action of `t`, so that a second unloading invokes nothing. -/
theorem unload_runs_atExit_lifo (I : Interpreter) (t : Nat)
    (regs : List (Nat × Nat × Nat × Nat)) :
    (unload (regs.foldl registerAtExit I) t).trace =
      I.trace ++
        ((regs.filter (fun r => r.1 == t)).reverse.map (fun r => Event.atExit r.2.1 r.2.2.1) ++
         (I.m_AtExitFuncs.filter (ownedBy t)).reverse.map atExitEvent) ∧
    (unload (regs.foldl registerAtExit I) t).m_AtExitFuncs =
      I.m_AtExitFuncs.filter (fun e => !ownedBy t e) ++
        (regs.filter (fun r => !(r.1 == t))).map elementOf ∧
    (∀ e ∈ (unload (regs.foldl registerAtExit I) t).m_AtExitFuncs, ownedBy t e = false) ∧
    (unload (unload (regs.foldl registerAtExit I) t) t).trace =
      (unload (regs.foldl registerAtExit I) t).trace := by
  obtain ⟨hf, ht⟩ := registerAtExit_all regs I
  have hmap : ∀ l : List (Nat × Nat × Nat × Nat),
      (l.map elementOf).filter (ownedBy t) = (l.filter (fun r => r.1 == t)).map elementOf := by
    intro l
    rw [List.filter_map]
    congr 1
  have hmap' : ∀ l : List (Nat × Nat × Nat × Nat),
      (l.map elementOf).filter (fun e => !ownedBy t e) =
        (l.filter (fun r => !(r.1 == t))).map elementOf := by
    intro l
    rw [List.filter_map]
    congr 1
  have hrem : (unload (regs.foldl registerAtExit I) t).m_AtExitFuncs =
      I.m_AtExitFuncs.filter (fun e => !ownedBy t e) ++
        (regs.filter (fun r => !(r.1 == t))).map elementOf := by
    rw [unload_atExitFuncs, hf, List.filter_append, hmap']
  have hnone : ∀ e ∈ (unload (regs.foldl registerAtExit I) t).m_AtExitFuncs,
      ownedBy t e = false := by
    intro e he
    rw [unload_atExitFuncs] at he
    have := (List.mem_filter.mp he).2
    simpa using this
  refine ⟨?_, hrem, hnone, ?_⟩
  · rw [unload_trace, ht, hf, List.filter_append, hmap, List.reverse_append, List.map_append]
    congr 2
    rw [← List.map_reverse, List.map_map]
    rfl
  · rw [unload_trace (unload (regs.foldl registerAtExit I) t)]
    have : (unload (regs.foldl registerAtExit I) t).m_AtExitFuncs.filter (ownedBy t) = [] := by
      rw [List.filter_eq_nil_iff]
      intro e he
      simp [hnone e he]
    rw [this]
    simp

/-! ### Static initializers run once -/

theorem foldl_CXAAtExit_frame (acts : List (Nat × Nat × Nat)) : ∀ I : Interpreter,
    (acts.foldl (fun J a => (CXAAtExit J a.1 a.2.1 a.2.2).2) I).trace = I.trace ∧
    (acts.foldl (fun J a => (CXAAtExit J a.1 a.2.1 a.2.2).2) I).initialized = I.initialized := by
  induction acts with
  | nil => intro I; simp
  | cons a rest ih =>
    intro I
    rw [List.foldl_cons]
    obtain ⟨h₁, h₂⟩ := ih (CXAAtExit I a.1 a.2.1 a.2.2).2
    rw [h₁, h₂]
    simp [CXAAtExit]

theorem runStaticInit_frame (owner : Nat) (I : Interpreter) (s : StaticInit) :
    (runStaticInit owner I s).trace = I.trace ++ [Event.staticInit owner s.fn] ∧
    (runStaticInit owner I s).initialized = I.initialized := by
  unfold runStaticInit
  obtain ⟨h₁, h₂⟩ := foldl_CXAAtExit_frame s.atExit
    { I with trace := I.trace ++ [Event.staticInit owner s.fn] }
  exact ⟨h₁, h₂⟩

theorem foldl_runStaticInit_frame (owner : Nat) (inits : List StaticInit) :
    ∀ I : Interpreter,
    (inits.foldl (runStaticInit owner) I).trace =
      I.trace ++ inits.map (fun s => Event.staticInit owner s.fn) ∧
    (inits.foldl (runStaticInit owner) I).initialized = I.initialized := by
  induction inits with
  | nil => intro I; simp
  | cons s rest ih =>
    intro I
    rw [List.foldl_cons]
    obtain ⟨h₁, h₂⟩ := ih (runStaticInit owner I s)
    obtain ⟨g₁, g₂⟩ := runStaticInit_frame owner I s
    rw [h₁, h₂, g₁, g₂]
    simp

theorem runStaticInitializersOnce_of_mem (C : Collaborators) (I : Interpreter)
    (T : Transaction) (h : T.seqNo ∈ I.initialized) :
    (runStaticInitializersOnce C I T).2 = I := by
  simp [runStaticInitializersOnce, h]

theorem runStaticInitializersOnce_mem (C : Collaborators) (I : Interpreter) (T : Transaction) :
    T.seqNo ∈ (runStaticInitializersOnce C I T).2.initialized := by
  unfold runStaticInitializersOnce
  by_cases h : T.seqNo ∈ I.initialized
  · simp [h]
  · simp [h]

theorem runStaticInitializersTimes_succ (C : Collaborators) (T : Transaction) :
    ∀ (k : Nat) (I : Interpreter),
    runStaticInitializersTimes C T (k + 1) I = (runStaticInitializersOnce C I T).2
  | 0, _ => rfl
  | k + 1, I => by
    have ih := runStaticInitializersTimes_succ C T k (runStaticInitializersOnce C I T).2
    rw [runStaticInitializersTimes, ih]
    exact runStaticInitializersOnce_of_mem C _ T (runStaticInitializersOnce_mem C I T)

theorem staticInitRuns_map (t : Nat) (inits : List StaticInit) :
    staticInitRuns t (inits.map (fun s => Event.staticInit t s.fn)) = inits.map StaticInit.fn := by
  induction inits with
  | nil => rfl
  | cons s rest ih =>
    unfold staticInitRuns at ih ⊢
    simp only [List.map_cons, List.filterMap_cons, if_true]
    rw [ih]

/-- C4: when the static initializers of `T` are still pending, `k + 1` invocations of
`runStaticInitializersOnce(T)` run each static initializer of `T` exactly once, in
declaration order: the trace grows by one run of each of them, and the state after
`k + 1` invocations is the state after the first, so the second and later invocations
run nothing. -/
theorem runStaticInitializersOnce_runs_once (C : Collaborators) (I : Interpreter)
    (T : Transaction) (k : Nat) (h : T.seqNo ∉ I.initialized) :
    (runStaticInitializersTimes C T (k + 1) I).trace =
      I.trace ++ (staticInitsOf C T).map (fun s => Event.staticInit T.seqNo s.fn) ∧
    staticInitRuns T.seqNo (runStaticInitializersTimes C T (k + 1) I).trace =
      staticInitRuns T.seqNo I.trace ++ (staticInitsOf C T).map StaticInit.fn ∧
    runStaticInitializersTimes C T (k + 1) I = (runStaticInitializersOnce C I T).2 ∧
    (runStaticInitializersOnce C (runStaticInitializersOnce C I T).2 T).2 =
      (runStaticInitializersOnce C I T).2 := by
  have htr : (runStaticInitializersTimes C T (k + 1) I).trace =
      I.trace ++ (staticInitsOf C T).map (fun s => Event.staticInit T.seqNo s.fn) := by
    rw [runStaticInitializersTimes_succ]
    unfold runStaticInitializersOnce
    simp only [h, if_false]
    exact (foldl_runStaticInit_frame T.seqNo (staticInitsOf C T)
      { I with executing := some T.seqNo }).1
  refine ⟨htr, ?_, runStaticInitializersTimes_succ C T k I,
    runStaticInitializersOnce_of_mem C _ T (runStaticInitializersOnce_mem C I T)⟩
  rw [htr]
  unfold staticInitRuns
  rw [List.filterMap_append]
  congr 1
  exact staticInitRuns_map T.seqNo (staticInitsOf C T)

/-- Witness for C4: three invocations on the Transaction committed by the declaration of
the scenario, whose initializers are pending. -/
theorem runStaticInitializersOnce_runs_once_witness :
    (declare sampleCollaborators ctor "int x = 5;").2.1.seqNo ∉
      (declare sampleCollaborators ctor "int x = 5;").2.2.initialized ∧
    staticInitRuns (declare sampleCollaborators ctor "int x = 5;").2.1.seqNo
      (runStaticInitializersTimes sampleCollaborators
        (declare sampleCollaborators ctor "int x = 5;").2.1 (2 + 1)
        (declare sampleCollaborators ctor "int x = 5;").2.2).trace =
      staticInitRuns (declare sampleCollaborators ctor "int x = 5;").2.1.seqNo
        (declare sampleCollaborators ctor "int x = 5;").2.2.trace ++
      (staticInitsOf sampleCollaborators
        (declare sampleCollaborators ctor "int x = 5;").2.1).map StaticInit.fn :=
  ⟨by decide,
   (runStaticInitializersOnce_runs_once sampleCollaborators
      (declare sampleCollaborators ctor "int x = 5;").2.2
      (declare sampleCollaborators ctor "int x = 5;").2.1 2 (by decide)).2.1⟩

end Interpreter

end cling

namespace TClassAttributeMap

/-! ### Lookups and removals of `TClassAttributeMap` -/

theorem findObject_eq_none_iff {α : Type} [TObject α] (t : THashTable α) (key : String) :
    t.FindObject key = none ↔ ∀ p ∈ t.fCont, TObject.GetName p ≠ key := by
  unfold THashTable.FindObject
  rw [List.find?_eq_none]
  constructor
  · intro h p hp heq
    exact h p hp (by simp [heq])
  · intro h p hp hbeq
    exact h p hp (by simpa using hbeq)

theorem findObject_isSome_iff {α : Type} [TObject α] (t : THashTable α) (key : String) :
    (t.FindObject key).isSome = true ↔ ∃ p ∈ t.fCont, TObject.GetName p = key := by
  constructor
  · intro h
    obtain ⟨p, hp⟩ := Option.isSome_iff_exists.mp h
    unfold THashTable.FindObject at hp
    exact ⟨p, List.mem_of_find?_eq_some hp, by simpa using List.find?_some hp⟩
  · rintro ⟨p, hp, hname⟩
    cases hf : t.FindObject key with
    | some q => rfl
    | none => exact absurd hname ((findObject_eq_none_iff t key).mp hf p hp)

/-- C11: when no Int property is stored under `key`, `GetPropertyAsInt(key)` reports the
error "Could not find property with Int value for this key" and returns `-1`, whatever the
String table holds (a String property under the same key makes no difference). The member
is `const`: it yields a value and an error report and no new map. -/
theorem getPropertyAsInt_of_no_int (m : TClassAttributeMap) (key : String)
    (h : ∀ p ∈ m.fIntProperty.fCont, p.fName ≠ key) :
    m.GetPropertyAsInt key =
      (-1, some ⟨"GetPropertyAsInt",
        "Could not find property with Int value for this key: " ++ key⟩) ∧
    (m.GetPropertyAsInt key).1 = -1 ∧
    (m.GetPropertyAsInt key).2.isSome = true := by
  have hnone : m.fIntProperty.FindObject key = none :=
    (findObject_eq_none_iff m.fIntProperty key).mpr h
  unfold GetPropertyAsInt
  rw [hnone]
  exact ⟨rfl, rfl, rfl⟩

/-- Witness for C11 on a map that holds a String property under the asked key and an Int
property under another key. -/
theorem getPropertyAsInt_of_no_int_witness :
    (∀ p ∈ ((ctor.AddPropertyString "a" "s").AddProperty "b" 7).fIntProperty.fCont,
      p.fName ≠ "a") ∧
    ((ctor.AddPropertyString "a" "s").AddProperty "b" 7).HasKey "a" = true ∧
    (((ctor.AddPropertyString "a" "s").AddProperty "b" 7).GetPropertyAsInt "a").1 = -1 ∧
    (((ctor.AddPropertyString "a" "s").AddProperty "b" 7).GetPropertyAsInt "a").2.isSome = true :=
  ⟨by decide, by decide,
   (getPropertyAsInt_of_no_int ((ctor.AddPropertyString "a" "s").AddProperty "b" 7) "a"
     (by decide)).2⟩

/-- C12: `RemovePropertyInt(key)` either finds an Int property under `key`, returns its
value and takes exactly that object out of the Int table (the String table is untouched
and `GetPropertySize` is one less), or there is no Int property under `key` and it returns
`-1` and the same map. -/
theorem removePropertyInt_spec (m : TClassAttributeMap) (key : String) :
    (∃ p : TParameter,
      m.fIntProperty.FindObject key = some p ∧ p ∈ m.fIntProperty.fCont ∧ p.fName = key ∧
      (m.RemovePropertyInt key).1 = p.fVal ∧
      (m.RemovePropertyInt key).2.fIntProperty.fCont = m.fIntProperty.fCont.erase p ∧
      (m.RemovePropertyInt key).2.fStringProperty = m.fStringProperty ∧
      (m.RemovePropertyInt key).2.GetPropertySize = m.GetPropertySize - 1) ∨
    ((∀ p ∈ m.fIntProperty.fCont, p.fName ≠ key) ∧ m.RemovePropertyInt key = (-1, m)) := by
  cases hf : m.fIntProperty.FindObject key with
  | none =>
    right
    refine ⟨(findObject_eq_none_iff m.fIntProperty key).mp hf, ?_⟩
    unfold RemovePropertyInt
    rw [hf]
  | some p =>
    left
    have hmem : p ∈ m.fIntProperty.fCont := by
      unfold THashTable.FindObject at hf
      exact List.mem_of_find?_eq_some hf
    have hname : p.fName = key := by
      unfold THashTable.FindObject at hf
      simpa [TObject.GetName] using List.find?_some hf
    have hpos : 0 < m.fIntProperty.fCont.length := List.length_pos_of_mem hmem
    refine ⟨p, rfl, hmem, hname, ?_, ?_, ?_, ?_⟩
    · unfold RemovePropertyInt
      rw [hf]
    · unfold RemovePropertyInt
      rw [hf]
      rfl
    · unfold RemovePropertyInt
      rw [hf]
    · unfold RemovePropertyInt
      rw [hf]
      simp only [GetPropertySize, THashTable.GetSize, THashTable.Remove,
        List.length_erase_of_mem hmem]
      omega

/-- C13: `HasKey(key)` is true exactly when the String table or the Int table holds a
property whose name is `key`. -/
theorem hasKey_iff (m : TClassAttributeMap) (key : String) :
    m.HasKey key = true ↔
      ((∃ p ∈ m.fStringProperty.fCont, p.fName = key) ∨
       (∃ p ∈ m.fIntProperty.fCont, p.fName = key)) := by
  have hs := findObject_isSome_iff m.fStringProperty key
  have hi := findObject_isSome_iff m.fIntProperty key
  simp only [TObject.GetName] at hs hi
  rw [← hs, ← hi]
  unfold HasKey
  cases (m.fStringProperty.FindObject key).isSome <;>
    cases (m.fIntProperty.FindObject key).isSome <;> simp

/-- C14: `GetPropertySize` is the number of stored Int properties plus the number of
stored String properties, and each call of either `AddProperty` overload, with any key and
value, makes it exactly one larger. -/
theorem getPropertySize_count_and_add (m : TClassAttributeMap) (key : String) (value : Int)
    (title : String) :
    m.GetPropertySize =
      (m.fIntProperty.fCont.length : Int) + (m.fStringProperty.fCont.length : Int) ∧
    (m.AddProperty key value).GetPropertySize = m.GetPropertySize + 1 ∧
    (m.AddPropertyString key title).GetPropertySize = m.GetPropertySize + 1 := by
  refine ⟨rfl, ?_, ?_⟩
  · simp only [GetPropertySize, AddProperty, THashTable.GetSize, THashTable.Add,
      List.length_append, List.length_singleton]
    push_cast
    ring
  · simp only [GetPropertySize, AddPropertyString, THashTable.GetSize, THashTable.Add,
      List.length_append, List.length_singleton]
    push_cast
    ring

end TClassAttributeMap

namespace cling

/-- C15: the six execution results have the pairwise distinct values `0` to `5` in the
order of their declaration, `kExeFirstError` is the same value as
`kExeFunctionNotCompiled` and no seventh one, and `kNumExeResults` is `6`, the number of
results. -/
theorem executionResult_values :
    [kExeSuccess, kExeNoCodeGen, kExeFunctionNotCompiled, kExeUnresolvedSymbols,
      kExeCompilationError, kExeUnkownFunction] = [0, 1, 2, 3, 4, 5] ∧
    [kExeSuccess, kExeNoCodeGen, kExeFunctionNotCompiled, kExeUnresolvedSymbols,
      kExeCompilationError, kExeUnkownFunction].Nodup ∧
    kExeFirstError = kExeFunctionNotCompiled ∧
    kExeFirstError ∈ [kExeSuccess, kExeNoCodeGen, kExeFunctionNotCompiled,
      kExeUnresolvedSymbols, kExeCompilationError, kExeUnkownFunction] ∧
    kNumExeResults = 6 ∧
    [kExeSuccess, kExeNoCodeGen, kExeFunctionNotCompiled, kExeUnresolvedSymbols,
      kExeCompilationError, kExeUnkownFunction].length = kNumExeResults := by
  decide

end cling
